import Mathlib

/-!
Verification of the AlphaRouter repository against its specification.

Shallow embedding of:
  * `src/common/utils.py` — `check_debug`, `TimeEstimator.get_est_string`,
    `cal_distance`, `parse_saved_model_dir`;
  * `src/models/cvrp_model/models.py` — `CVRPModel.forward` (probability
    branches, encoding cache);
  * `src/models/tsp_model/models.py` — `TSPModel.forward` (encoding cache)
    and `Policy.forward` (masked softmax);
  * `src/pretrain_model/pretrainer_module_pl.py` — `AMTrainer.training_step`
    loss composition.

Machine floats are modelled by exact rationals; the exponential and tanh of
the softmax/logit pipeline are abstract function parameters (`e`, `th`) with
just the hypotheses the claims need (positivity of `e`), and IEEE
`exp(-inf) = 0` is modelled on `WithBot ℚ` (`⊥` standing for `-infinity`).
-/

/-- Embedding of `check_debug` (src/common/utils.py lines 200-208).
`sys.gettrace()` is modelled by an `Option Unit`: `none` when no tracer is
attached, `some ()` when one is.  The body is translated literally:
`eq = sys.gettrace() is None; if eq is False: return True else: return False`. -/
def check_debug (gettrace : Option Unit) : Bool :=
  let eq := gettrace.isNone
  if eq = false then true else false

/-- Round half to even (the rounding used by Python fixed-point formatting),
on exact rationals. -/
def rhe (q : ℚ) : ℤ :=
  let f := ⌊q⌋
  let r := q - (f : ℚ)
  if r < 1/2 then f
  else if 1/2 < r then f + 1
  else if f % 2 = 0 then f else f + 1

/-- Two fixed fractional digits, as in Python `"{:.2f}"`: the digit characters
of `m % 100` left-padded with `0` to width 2. -/
def frac2 (m : ℕ) : String :=
  String.mk [Nat.digitChar (m / 10 % 10), Nat.digitChar (m % 10)]

/-- Embedding of Python `"{:.2f}".format q` on an exact rational. -/
def fmt2 (q : ℚ) : String :=
  (if rhe (q * 100) < 0 then "-" else "") ++ toString ((rhe (q * 100)).natAbs / 100)
    ++ "." ++ frac2 ((rhe (q * 100)).natAbs % 100)

/-- Four fixed fractional digits, as in Python `"{:.4f}"`: the digit characters
of `m % 10000` left-padded with `0` to width 4. -/
def frac4 (m : ℕ) : String :=
  String.mk [Nat.digitChar (m / 1000 % 10), Nat.digitChar (m / 100 % 10),
    Nat.digitChar (m / 10 % 10), Nat.digitChar (m % 10)]

/-- Embedding of Python `"{:.4f}".format q` on an exact rational. -/
def fmt4 (q : ℚ) : String :=
  (if rhe (q * 10000) < 0 then "-" else "") ++ toString ((rhe (q * 10000)).natAbs / 10000)
    ++ "." ++ frac4 ((rhe (q * 10000)).natAbs % 10000)

/-- Formatting of one time value by `TimeEstimator.get_est_string`
(src/common/utils.py lines 157-163): the value `t` is in hours;
`"{:.2f}h".format(t) if t > 1.0 else "{:.2f}m".format(t * 60)`. -/
def time_str (t : ℚ) : String :=
  if 1 < t then fmt2 t ++ "h" else fmt2 (t * 60) ++ "m"

/-- Embedding of `TimeEstimator.get_est_string` applied to the elapsed and
remaining times (in hours) computed by `get_est`. -/
def get_est_string (elapsed remain : ℚ) : String × String :=
  (time_str elapsed, time_str remain)

/-- The run-arguments record consumed by `parse_saved_model_dir`
(src/common/utils.py lines 413-438).  Integer-valued fields are `ℕ`
(Python renders them with `str`, matching `toString` on `ℕ`); `cpuct` is
kept as its rendered string (Python interpolates the float with `str`);
`ent_coef` is an exact rational, rendered through `fmt4` (`:.4f`). -/
structure Args where
  env_type : String
  num_nodes : ℕ
  num_episode : ℕ
  nn : String
  embedding_dim : ℕ
  encoder_layer_num : ℕ
  qkv_dim : ℕ
  head_num : ℕ
  C : ℕ
  num_simulations : ℕ
  temp_threshold : ℕ
  cpuct : String
  normalize_value : Bool
  rollout_game : Bool
  ent_coef : ℚ

/-- Python `str` of a boolean, as interpolated in an f-string. -/
def pyBool (b : Bool) : String := if b then "True" else "False"

/-- `env_param_nm = f"{args.env_type}/N_{args.num_nodes}-B_{args.num_episode}"`. -/
def env_param_nm (a : Args) : String :=
  a.env_type ++ "/N_" ++ toString a.num_nodes ++ "-B_" ++ toString a.num_episode

/-- `model_param_nm = f"/{args.nn}-{args.embedding_dim}-{args.encoder_layer_num}-{args.qkv_dim}-{args.head_num}-{args.C}"`. -/
def model_param_nm (a : Args) : String :=
  "/" ++ a.nn ++ "-" ++ toString a.embedding_dim ++ "-" ++ toString a.encoder_layer_num ++
    "-" ++ toString a.qkv_dim ++ "-" ++ toString a.head_num ++ "-" ++ toString a.C

/-- `mcts_param_nm = f"/ns_{...}-temp_{...}-cpuct_{...}-norm_{...}-rollout_{...}-ec_{args.ent_coef:.4f}"`. -/
def mcts_param_nm (a : Args) : String :=
  "/ns_" ++ toString a.num_simulations ++ "-temp_" ++ toString a.temp_threshold ++
    "-cpuct_" ++ a.cpuct ++ "-norm_" ++ pyBool a.normalize_value ++
    "-rollout_" ++ pyBool a.rollout_game ++ "-ec_" ++ fmt4 a.ent_coef

/-- The folder name without its leading `"."`: the source builds
`f"./{result_dir}/{name_pfx}/{env_param_nm}{model_param_nm}{mcts_param_nm}"`,
and the debug branch replaces the leading `"."` (`result_folder_name[1:]`
keeps exactly this tail). -/
def psd_tail (a : Args) (result_dir name_pfx : String) (mcts_param : Bool) : String :=
  "/" ++ result_dir ++ "/" ++ name_pfx ++ "/" ++ env_param_nm a ++ model_param_nm a ++
    (if mcts_param then mcts_param_nm a else "")

/-- The `result_folder_name` computed by `parse_saved_model_dir`, including the
`"./debug" + result_folder_name[1:]` rewrite applied when
`not ignore_debug and check_debug()`. -/
def psd_folder (a : Args) (result_dir name_pfx : String)
    (mcts_param ignore_debug : Bool) (gettrace : Option Unit) : String :=
  if !ignore_debug && check_debug gettrace then
    "./debug" ++ psd_tail a result_dir name_pfx mcts_param
  else
    "." ++ psd_tail a result_dir name_pfx mcts_param

/-- Embedding of `parse_saved_model_dir` (src/common/utils.py lines 413-438).
The Python function returns either a string or `None`; the return type is
therefore `Option String` (`none` models Python `None`).  `gettrace` feeds
the internal `check_debug()` call. -/
def parse_saved_model_dir (a : Args) (result_dir name_pfx : String)
    (load_epoch : Option String) (mcts_param return_checkpoint ignore_debug : Bool)
    (gettrace : Option Unit) : Option String :=
  let result_folder_name := psd_folder a result_dir name_pfx mcts_param ignore_debug gettrace
  if return_checkpoint then
    match load_epoch with
    | some e => some (result_folder_name ++ "/saved_models/checkpoint-" ++ e ++ ".pt")
    | none => none
  else
    some result_folder_name

/-- One Euclidean segment term of `cal_distance`
(src/common/utils.py lines 113-133): `np.sqrt(((a - b) ** 2).sum(-1))` for a
pair of 2-d points.  The square root is an abstract parameter `f` applied to
the exact squared length (the claims proved below hold for every such `f`;
the genuine square root satisfies the hypothesis `f 1 = 1` used for the
unit-square instance). -/
def segLen (f : ℚ → ℚ) (a b : ℚ × ℚ) : ℚ :=
  f ((a.1 - b.1) ^ 2 + (a.2 - b.2) ^ 2)

/-- Closed-tour segment sum of a gathered coordinate sequence: the sequence is
zipped with `np.roll(seq, -1, axis=1)` — a left rotation by one — and the
per-segment lengths are summed (`segments.sum(1)`). -/
def cycleSum {α M : Type*} [AddCommMonoid M] (d : α → α → M) (l : List α) : M :=
  (List.zipWith d l (l.rotate 1)).sum

/-- `np.take_along_axis(xy, gather_idx, 1)` for one batch row: coordinates
gathered along the visiting sequence. -/
def gatherSeq (xy : List (ℚ × ℚ)) (seq : List ℕ) : List (ℚ × ℚ) :=
  seq.map fun i => xy.getD i (0, 0)

/-- Embedding of `cal_distance` (src/common/utils.py lines 113-133) for one
batch row, before the final `astype(np.float16)` cast (the cast maps equal
exact values to equal half-precision values, and the unit-square total `4`
is exactly representable). -/
def cal_distance (f : ℚ → ℚ) (xy : List (ℚ × ℚ)) (seq : List ℕ) : ℚ :=
  cycleSum (segLen f) (gatherSeq xy seq)

/-- PyTorch broadcast compatibility of two one-dimensional index tensors of
lengths `a` and `b`: they broadcast together iff the lengths agree or one
of them is `1`. -/
def broadcastable (a b : ℕ) : Bool := a == b || a == 1 || b == 1

/-- The sequence of element writes performed by the `t == 1` advanced-index
assignment `probs[:, torch.arange(pomo_size), torch.arange(N)] = torch.arange(N)`
(src/models/cvrp_model/models.py line 82), given that the two index tensors
broadcast: write `j` runs over the broadcast length `max P N`, the dim-1
index is `arange(P)` (repeated when `P = 1`), the dim-2 index is `arange(N)`
(repeated when `N = 1`), and the assigned value is `arange(N)` broadcast the
same way.  Each entry is `(dim1 index, dim2 index, value)`. -/
def t1_writes (P N : ℕ) : List (ℕ × ℕ × ℚ) :=
  (List.range (max P N)).map fun j =>
    (if P = 1 then 0 else j, if N = 1 then 0 else j, if N = 1 then (0 : ℚ) else (j : ℚ))

/-- One element write into a (pomo, node)-indexed tensor slice. -/
def applyWrite (g : ℕ → ℕ → ℚ) (w : ℕ × ℕ × ℚ) : ℕ → ℕ → ℚ :=
  fun p n => if p = w.1 ∧ n = w.2.1 then w.2.2 else g p n

/-- The `t == 1` probability slice: all writes of `t1_writes` applied in order
to the zero tensor `torch.zeros(batch_size, pomo_size, N)` (every batch row
receives the same slice). -/
def t1_probs (P N : ℕ) : ℕ → ℕ → ℚ :=
  (t1_writes P N).foldl applyWrite fun _ _ => 0

/-- The encoding-cache conditional of `CVRPModel.forward`
(src/models/cvrp_model/models.py lines 69-71):
`if self.encoding is None: self.encoding = self.encoder(xy, demands); ...`.
Returns the encoding used downstream, the cache field after the call, and
whether the encoder was invoked. -/
def cvrp_encode {E : Type*} (encoder_out : E) (cache : Option E) : E × Option E × Bool :=
  match cache with
  | none => (encoder_out, some encoder_out, true)
  | some e => (e, some e, false)

/-- Embedding of the probability computation of `CVRPModel.forward`
(src/models/cvrp_model/models.py lines 54-93).  `t` is `obs['t']`, `P` the
pomo (trajectory) count, `N` the node count, `avail` the availability mask,
`encoder_out` the value `self.encoder(xy, demands)` would produce, `cache`
the `self.encoding` field at entry, and `pol` abstracts the decoder +
`self.policy_net` pipeline of the final branch (a function of the encoding
used and the mask, yielding the reshaped `(batch, pomo, node) → prob` slice).
The result is `none` when the `t == 1` advanced-index assignment fails to
broadcast (a PyTorch shape error), otherwise `some` of the probability
tensor together with the updated cache and the encoder-invocation flag. -/
def cvrp_forward {E : Type*} (t P N : ℕ) (avail : ℕ → ℕ → Bool)
    (encoder_out : E) (cache : Option E)
    (pol : E → (ℕ → ℕ → Bool) → ℕ → ℕ → ℕ → ℚ) :
    Option ((ℕ → ℕ → ℕ → ℚ) × Option E × Bool) :=
  let ec := cvrp_encode encoder_out cache
  if t = 0 then
    some (fun _ _ n => if n = 0 then (1 : ℚ) else 0, ec.2.1, ec.2.2)
  else if t = 1 then
    if broadcastable P N then some (fun _ p n => t1_probs P N p n, ec.2.1, ec.2.2)
    else none
  else
    some (pol ec.1 avail, ec.2.1, ec.2.2)

/-- The encoding-cache conditional of `TSPModel.forward`
(src/models/tsp_model/models.py lines 57-58):
`if self.encoding is None: self.encoding = self.encoder(xy)`. -/
def tsp_encode {E : Type*} (encoder_out : E) (cache : Option E) : E × Option E × Bool :=
  match cache with
  | none => (encoder_out, some encoder_out, true)
  | some e => (e, some e, false)

/-- Embedding of `TSPModel.forward` (variant A, src/models/tsp_model/models.py
lines 46-72) at the cache/encoder level: the decoder + policy + value pipeline
is abstracted by `pol` (a function of the encoding used and the mask); the
result carries the probability slice, the cache after the call, and whether
the encoder was invoked.  This variant has no time-step special case. -/
def tsp_forward {E : Type*} (avail : ℕ → Bool) (encoder_out : E) (cache : Option E)
    (pol : E → (ℕ → Bool) → ℕ → ℕ → ℚ) : (ℕ → ℕ → ℚ) × Option E × Bool :=
  let ec := tsp_encode encoder_out cache
  (pol ec.1 avail, ec.2.1, ec.2.2)

/-- The additive mask built by `TSPModel.forward` (src/models/tsp_model/models.py
lines 54-55): `0` where the node is available, `-infinity` (modelled by `⊥` in
`WithBot ℚ`) where it is not. -/
def maskVal (avail : Bool) : WithBot ℚ :=
  if avail then 0 else ⊥

/-- IEEE exponential extended to `-infinity`: `exp(-inf) = 0`; on finite
inputs it is the abstract positive function `e`. -/
def expW (e : ℚ → ℚ) : WithBot ℚ → ℚ
  | ⊥ => 0
  | (x : ℚ) => e x

/-- The single-head attention score of `Policy.forward`
(src/models/tsp_model/models.py line 125): `torch.matmul(mh_attn_out,
single_head_key)` for one trajectory row — `q` is the decoder output row,
`K` the single-head key matrix. -/
def policy_score {E N : ℕ} (q : Fin E → ℚ) (K : Fin E → Fin N → ℚ) (n : Fin N) : ℚ :=
  ∑ k, q k * K k n

/-- Embedding of `Policy.forward` (src/models/tsp_model/models.py lines
118-142) for one trajectory row: scale by `1/sqrt(embedding_dim)` (`sd`
stands for the real `math.sqrt(embedding_dim)`), clip via `C * tanh` (`th`
stands for tanh), add the `0 / -infinity` mask, and softmax over the node
dimension (`e` stands for the exponential, with `exp(-inf) = 0`). -/
def policy_forward {E N : ℕ} (C sd : ℚ) (th e : ℚ → ℚ)
    (q : Fin E → ℚ) (K : Fin E → Fin N → ℚ) (avail : Fin N → Bool) (n : Fin N) : ℚ :=
  let score_clipped := fun m => C * th (policy_score q K m / sd)
  let score_masked := fun m => ((score_clipped m : ℚ) : WithBot ℚ) + maskVal (avail m)
  expW e (score_masked n) / ∑ m, expW e (score_masked m)

/-- Mean of a list of rationals (`tensor.mean()` on exact values). -/
def listMean (l : List ℚ) : ℚ := l.sum / (l.length : ℚ)

/-- The policy loss of `AMTrainer.training_step`
(src/pretrain_model/pretrainer_module_pl.py line 80):
`(adv.detach() * log_prob).sum(dim=-1).mean()` with
`adv = broadcast(reward) - val_tensor` — per batch entry `b`, the sum over
time of `(reward_b - val_{b,t}) * logp_{b,t}`, then the mean over the batch. -/
def p_loss_def (reward : List ℚ) (vals lps : List (List ℚ)) : ℚ :=
  listMean ((List.zip reward (List.zip vals lps)).map fun x =>
    (List.zipWith (fun v l => (x.1 - v) * l) x.2.1 x.2.2).sum)

/-- The entropy term (line 81): `-torch.cat(entropy_lst, dim=-1).mean()`. -/
def entropy_def (ents : List (List ℚ)) : ℚ :=
  -listMean ents.flatten

/-- The value loss (line 86): `0.5 * F.mse_loss(val_tensor,
reward.unsqueeze(-1).detach())` — the target is broadcast along time, and the
mean runs over every (batch, time) element. -/
def val_loss_def (reward : List ℚ) (vals : List (List ℚ)) : ℚ :=
  1/2 * listMean (((List.zip reward vals).map fun x =>
    x.2.map fun v => (v - x.1) ^ 2).flatten)

/-- The total loss of `AMTrainer.training_step` (line 88):
`loss = p_loss + val_loss + self.ent_coef * entropy` on the recorded per-step
log-probabilities, entropies and value estimates and the sign-flipped final
reward. -/
def training_loss (ent_coef : ℚ) (reward : List ℚ) (vals lps ents : List (List ℚ)) : ℚ :=
  p_loss_def reward vals lps + val_loss_def reward vals + ent_coef * entropy_def ents

/-- C1 counterexample: the claim states that `check_debug` returns true when
`sys.gettrace()` is `None`; on the code, `check_debug` returns `false` when no
tracer is attached (`gettrace = none`) and `true` when one is attached. -/
theorem check_debug_claim_counterexample :
    check_debug none = false ∧ check_debug (some ()) = true :=
  ⟨rfl, rfl⟩

/-- C1 (amended): `check_debug` returns true exactly when a debugger/tracer
IS attached to the process — `sys.gettrace() is None` yields false, a
non-`None` tracer yields true. -/
theorem check_debug_detects_tracer (g : Option Unit) : check_debug g = g.isSome := by
  cases g <;> rfl

/-- C2: for every trajectory count, node count, availability mask, encoder
output, cache state and policy pipeline, `CVRPModel.forward` with `obs['t'] = 0`
produces a probability tensor that is exactly `1` at node index `0` and `0`
at every other node, for every batch element and trajectory. -/
theorem cvrp_forward_t0_depot_onehot {E : Type*} (P N : ℕ) (avail : ℕ → ℕ → Bool)
    (enc : E) (cache : Option E) (pol : E → (ℕ → ℕ → Bool) → ℕ → ℕ → ℕ → ℚ)
    (b p n : ℕ) :
    (cvrp_forward 0 P N avail enc cache pol).map (fun r => r.1 b p n)
      = some (if n = 0 then (1 : ℚ) else 0) := by
  simp [cvrp_forward]

/-- C3: for a single-step episode with one trajectory, with sampled-action
log-probability `lp`, entropy `H`, value estimate `v` and sign-flipped final
reward `r`, the total loss of `AMTrainer.training_step` equals
`(r - v) * lp + 0.5 * (v - r)^2 - ent_coef * H`. -/
theorem training_step_single_step_loss (ent_coef r v lp H : ℚ) :
    training_loss ent_coef [r] [[v]] [[lp]] [[H]]
      = (r - v) * lp + 1/2 * (v - r) ^ 2 - ent_coef * H := by
  simp [training_loss, p_loss_def, val_loss_def, entropy_def, listMean]
  ring

/-- C8 counterexample: at a time of exactly one hour the code formats with the
minutes branch (`elapsed_time > 1.0` is strict), producing `"60.00m"`, while
the claim requires the `"X.XXh"` format for every time of at least one hour. -/
theorem get_est_string_boundary_counterexample :
    get_est_string 1 1 = ("60.00m", "60.00m") ∧ ("60.00m" : String) ≠ fmt2 1 ++ "h" := by
  have h60 : fmt2 ((60 : ℚ)) = "60.00" := by
    have h : rhe ((60 : ℚ) * 100) = 6000 := by norm_num [rhe]
    simp only [fmt2, h]
    rfl
  have h1 : fmt2 (1 : ℚ) = "1.00" := by
    have h : rhe ((1 : ℚ) * 100) = 100 := by norm_num [rhe]
    simp only [fmt2, h]
    rfl
  constructor
  · have : ¬ ((1 : ℚ) < 1) := lt_irrefl 1
    simp [get_est_string, time_str, this, h60]
  · rw [h1]
    decide

/-- C8 (amended): each of the two time values returned by
`TimeEstimator.get_est_string` is formatted as `"X.XXh"` whenever the
corresponding time is strictly greater than one hour, and as `"X.XXm"`
(the value multiplied by 60) whenever it is at most one hour. -/
theorem get_est_string_format_amended (el re : ℚ) :
    (1 < el → (get_est_string el re).1 = fmt2 el ++ "h") ∧
    (el ≤ 1 → (get_est_string el re).1 = fmt2 (el * 60) ++ "m") ∧
    (1 < re → (get_est_string el re).2 = fmt2 re ++ "h") ∧
    (re ≤ 1 → (get_est_string el re).2 = fmt2 (re * 60) ++ "m") := by
  refine ⟨fun h => ?_, fun h => ?_, fun h => ?_, fun h => ?_⟩
  · simp [get_est_string, time_str, h]
  · simp [get_est_string, time_str, not_lt.2 h]
  · simp [get_est_string, time_str, h]
  · simp [get_est_string, time_str, not_lt.2 h]

/-- C8 witness: the amended format rule evaluated at two hours and at exactly
one hour. -/
theorem get_est_string_format_amended_witness :
    (get_est_string 2 1).1 = fmt2 2 ++ "h" ∧
    (get_est_string 2 1).2 = fmt2 (1 * 60) ++ "m" :=
  ⟨(get_est_string_format_amended 2 1).1 one_lt_two,
   (get_est_string_format_amended 2 1).2.2.2 le_rfl⟩

/-- C9: whenever the encoding cache is already populated at entry, both
`CVRPModel.forward` and `TSPModel.forward` skip the encoder, leave the cache
unchanged, and hand the cached encoding to the decoder/policy pipeline. -/
theorem encoding_cache_reused {E F : Type*} (t P N : ℕ) (av : ℕ → ℕ → Bool)
    (enc1 : E) (c1 : Option E) (pol1 : E → (ℕ → ℕ → Bool) → ℕ → ℕ → ℕ → ℚ) (e1 : E)
    (av2 : ℕ → Bool) (enc2 : F) (c2 : Option F) (pol2 : F → (ℕ → Bool) → ℕ → ℕ → ℚ) (e2 : F)
    (h1 : c1 = some e1) (h2 : c2 = some e2) :
    (∀ r, cvrp_forward t P N av enc1 c1 pol1 = some r → r.2 = (some e1, false)) ∧
    (2 ≤ t → cvrp_forward t P N av enc1 c1 pol1 = some (pol1 e1 av, some e1, false)) ∧
    tsp_forward av2 enc2 c2 pol2 = (pol2 e2 av2, some e2, false) := by
  subst h1
  subst h2
  refine ⟨?_, ?_, rfl⟩
  · intro r hr
    simp only [cvrp_forward, cvrp_encode] at hr
    split at hr
    · exact congrArg Prod.snd (Option.some.inj hr).symm
    · split at hr
      · split at hr
        · exact congrArg Prod.snd (Option.some.inj hr).symm
        · exact absurd hr (by simp)
      · exact congrArg Prod.snd (Option.some.inj hr).symm
  · intro ht
    have h0 : t ≠ 0 := by omega
    have h1' : t ≠ 1 := by omega
    simp [cvrp_forward, cvrp_encode, h0, h1']

/-- C9 witness: the cache-reuse property at a concrete cache state. -/
theorem encoding_cache_reused_witness :
    cvrp_forward 2 1 1 (fun _ _ => true) (5 : ℕ) (some 3)
        (fun (e : ℕ) (_ : ℕ → ℕ → Bool) (_ _ _ : ℕ) => (e : ℚ))
      = some ((fun (e : ℕ) (_ : ℕ → ℕ → Bool) (_ _ _ : ℕ) => (e : ℚ)) 3 (fun _ _ => true),
          some 3, false) ∧
    tsp_forward (fun _ => true) (6 : ℕ) (some 4)
        (fun (e : ℕ) (_ : ℕ → Bool) (_ _ : ℕ) => (e : ℚ))
      = ((fun (e : ℕ) (_ : ℕ → Bool) (_ _ : ℕ) => (e : ℚ)) 4 (fun _ => true),
          some 4, false) :=
  ⟨(encoding_cache_reused 2 1 1 (fun _ _ => true) 5 (some 3)
      (fun (e : ℕ) (_ : ℕ → ℕ → Bool) (_ _ _ : ℕ) => (e : ℚ)) 3
      (fun _ => true) 6 (some 4)
      (fun (e : ℕ) (_ : ℕ → Bool) (_ _ : ℕ) => (e : ℚ)) 4 rfl rfl).2.1 le_rfl,
   (encoding_cache_reused 2 1 1 (fun _ _ => true) 5 (some 3)
      (fun (e : ℕ) (_ : ℕ → ℕ → Bool) (_ _ _ : ℕ) => (e : ℚ)) 3
      (fun _ => true) 6 (some 4)
      (fun (e : ℕ) (_ : ℕ → Bool) (_ _ : ℕ) => (e : ℚ)) 4 rfl rfl).2.2⟩

/-- C10 counterexample: with `pomo_size = 2` and `N = 1` the claim predicts a
shape error (`2 ∉ {1, N}`), but the two index tensors (lengths 2 and 1)
broadcast, so the `t == 1` branch completes without error. -/
theorem cvrp_t1_broadcast_counterexample :
    (2 : ℕ) ≠ 1 ∧ (2 : ℕ) ≠ (1 : ℕ) ∧
    (cvrp_forward 1 2 1 (fun _ _ => true) (0 : ℕ) none (fun _ _ _ _ _ => (0 : ℚ))).isSome
      = true := by
  refine ⟨by decide, by decide, rfl⟩

/-- C10 (amended): with `obs['t'] = 1`, `CVRPModel.forward` raises a shape
error exactly when the trajectory count is neither `1` nor `N` AND `N ≠ 1`
(two one-dimensional index tensors broadcast when their lengths agree or
either is 1); in particular the branch completes whenever
`pomo_size ∈ {1, N}`. -/
theorem cvrp_t1_error_condition {E : Type*} (P N : ℕ) (av : ℕ → ℕ → Bool)
    (enc : E) (c : Option E) (pol : E → (ℕ → ℕ → Bool) → ℕ → ℕ → ℕ → ℚ) :
    cvrp_forward 1 P N av enc c pol = none ↔ (P ≠ 1 ∧ P ≠ N ∧ N ≠ 1) := by
  cases hb : broadcastable P N
  · simp only [broadcastable, Bool.or_eq_false_iff, beq_eq_false_iff_ne] at hb
    simp [cvrp_forward, broadcastable]
    tauto
  · simp only [broadcastable, Bool.or_eq_true, beq_iff_eq] at hb
    simp [cvrp_forward, broadcastable]
    tauto

/-- Applying a run of diagonal writes `(j, j, j)` for `j < M` to a slice `g`
yields `p` at every diagonal position `p = n < M` and leaves every other
position unchanged. -/
theorem foldl_applyWrite_diag (M : ℕ) (g : ℕ → ℕ → ℚ) (p n : ℕ) :
    (((List.range M).map fun j => ((j : ℕ), (j : ℕ), (j : ℚ))).foldl applyWrite g) p n
      = if p = n ∧ p < M then (p : ℚ) else g p n := by
  induction M generalizing g with
  | zero => simp
  | succ M ih =>
    rw [List.range_succ, List.map_append, List.foldl_append]
    simp only [List.map_cons, List.map_nil, List.foldl_cons, List.foldl_nil]
    by_cases hp : p = M ∧ n = M
    · simp only [applyWrite, hp, and_self, if_pos]
      obtain ⟨hp1, _⟩ := hp
      subst hp1
      simp [Nat.lt_succ_iff]
    · simp only [applyWrite, hp, if_neg, not_false_iff]
      rw [ih]
      have hiff : (p = n ∧ p < M + 1) ↔ (p = n ∧ p < M) := by
        constructor
        · rintro ⟨h1, h2⟩
          subst h1
          exact ⟨rfl, lt_of_le_of_ne (Nat.lt_succ_iff.mp h2) fun hM => hp ⟨hM, hM⟩⟩
        · rintro ⟨h1, h2⟩
          exact ⟨h1, Nat.lt_succ_of_lt h2⟩
      rw [if_congr hiff rfl rfl]

/-- When the pomo count equals the node count, the write sequence of the
`t == 1` assignment is exactly the diagonal ramp. -/
theorem t1_writes_diag (N : ℕ) :
    t1_writes N N = (List.range N).map fun j => ((j : ℕ), (j : ℕ), (j : ℚ)) := by
  by_cases h : N = 1
  · subst h
    decide
  · simp [t1_writes, h]

/-- C4: when `obs['t'] = 1` and the trajectory count equals the node count
`N`, `CVRPModel.forward` completes and writes the raw node-index ramp onto
the diagonal: entry `(b, j, j)` holds the value `j` for `j < N` and every
other entry is `0` — the rows are not normalized probability distributions. -/
theorem cvrp_forward_t1_diagonal_ramp {E : Type*} (N : ℕ) (avail : ℕ → ℕ → Bool)
    (enc : E) (cache : Option E) (pol : E → (ℕ → ℕ → Bool) → ℕ → ℕ → ℕ → ℚ)
    (b p n : ℕ) :
    (cvrp_forward 1 N N avail enc cache pol).map (fun r => r.1 b p n)
      = some (if p = n ∧ p < N then (p : ℚ) else 0) := by
  have hb : broadcastable N N = true := by simp [broadcastable]
  simp [cvrp_forward, hb, t1_probs, t1_writes_diag, foldl_applyWrite_diag]

/-- The segment sum along an open path `u :: l` closed off against `v`:
`zipWith d (u :: l) (l ++ [v])`. -/
def pathSum {α M : Type*} [AddCommMonoid M] (d : α → α → M) (u : α) (l : List α) (v : α) : M :=
  (List.zipWith d (u :: l) (l ++ [v])).sum

theorem pathSum_nil {α M : Type*} [AddCommMonoid M] (d : α → α → M) (u v : α) :
    pathSum d u [] v = d u v := by
  simp [pathSum]

theorem pathSum_cons {α M : Type*} [AddCommMonoid M] (d : α → α → M) (u b : α)
    (l : List α) (v : α) :
    pathSum d u (b :: l) v = d u b + pathSum d b l v := by
  simp [pathSum]

theorem pathSum_append_last {α M : Type*} [AddCommMonoid M] (d : α → α → M) (u : α)
    (l : List α) (w v : α) :
    pathSum d u (l ++ [w]) v = pathSum d u l w + d w v := by
  induction l generalizing u with
  | nil => simp [pathSum_nil, pathSum_cons]
  | cons b bs ih => simp only [List.cons_append, pathSum_cons, ih, add_assoc]

/-- Rotating a list one step to the left, spelled on a cons cell. -/
theorem rotate_one {α : Type*} (a : α) (l : List α) : (a :: l).rotate 1 = l ++ [a] := by
  simpa using List.rotate_cons_succ l a 0

theorem cycleSum_cons {α M : Type*} [AddCommMonoid M] (d : α → α → M) (x : α) (xs : List α) :
    cycleSum d (x :: xs) = pathSum d x xs x := by
  simp [cycleSum, pathSum, rotate_one]

/-- The closed-tour segment sum is invariant under one left rotation of the
node sequence. -/
theorem cycleSum_rotate_one {α M : Type*} [AddCommMonoid M] (d : α → α → M) (l : List α) :
    cycleSum d (l.rotate 1) = cycleSum d l := by
  match l with
  | [] => simp [cycleSum]
  | [x] => rw [rotate_one, List.nil_append]
  | x :: y :: ys =>
    rw [rotate_one]
    show cycleSum d (y :: (ys ++ [x])) = cycleSum d (x :: y :: ys)
    rw [cycleSum_cons, cycleSum_cons, pathSum_append_last, pathSum_cons]
    exact add_comm _ _

/-- The closed-tour segment sum is invariant under every cyclic rotation. -/
theorem cycleSum_rotate {α M : Type*} [AddCommMonoid M] (d : α → α → M) (l : List α) (k : ℕ) :
    cycleSum d (l.rotate k) = cycleSum d l := by
  induction k generalizing l with
  | zero => rw [List.rotate_zero]
  | succ k ih =>
    have h : l.rotate (k + 1) = (l.rotate 1).rotate k := by
      rw [List.rotate_rotate, Nat.add_comm]
    rw [h, ih, cycleSum_rotate_one]

/-- C6: the closed-tour distance computed by `cal_distance` is invariant under
cyclic rotation of the visiting sequence, for every coordinate list and every
segment-length function; and for the unit square `[[0,0],[1,0],[1,1],[0,1]]`
with visiting sequence `[0,1,2,3]` the result is `4` (each side has squared
length `1`, and any genuine square root satisfies `f 1 = 1`). -/
theorem cal_distance_rotation_invariant (f : ℚ → ℚ) (xy : List (ℚ × ℚ))
    (seq : List ℕ) (k : ℕ) :
    cal_distance f xy (seq.rotate k) = cal_distance f xy seq ∧
    (f 1 = 1 →
      cal_distance f [(0, 0), (1, 0), (1, 1), (0, 1)] [0, 1, 2, 3] = 4) := by
  constructor
  · unfold cal_distance gatherSeq
    rw [List.map_rotate]
    exact cycleSum_rotate _ _ k
  · intro hf
    have h1 : gatherSeq [(0, 0), (1, 0), (1, 1), (0, 1)] [0, 1, 2, 3]
        = [(0, 0), (1, 0), (1, 1), (0, 1)] := by
      simp [gatherSeq]
    rw [cal_distance, h1, cycleSum]
    rw [rotate_one]
    simp only [List.zipWith, List.sum_cons, List.sum_nil, segLen]
    norm_num [hf]

/-- C6 witness: rotation invariance and the unit-square value, evaluated with
the identity standing for the square root (which fixes `1`). -/
theorem cal_distance_rotation_invariant_witness :
    cal_distance id [(0, 0), (1, 0), (1, 1), (0, 1)] ([0, 1, 2, 3].rotate 1)
      = cal_distance id [(0, 0), (1, 0), (1, 1), (0, 1)] [0, 1, 2, 3] ∧
    cal_distance id [(0, 0), (1, 0), (1, 1), (0, 1)] [0, 1, 2, 3] = 4 :=
  ⟨(cal_distance_rotation_invariant id [(0, 0), (1, 0), (1, 1), (0, 1)] [0, 1, 2, 3] 1).1,
   (cal_distance_rotation_invariant id [(0, 0), (1, 0), (1, 1), (0, 1)] [0, 1, 2, 3] 1).2 rfl⟩

/-- The masked-softmax core: with a positive exponential, every unavailable
position gets probability `0` and the row sums to `1` as soon as one position
is available. -/
theorem maskedSoftmax_spec {N : ℕ} (e : ℚ → ℚ) (he : ∀ x, 0 < e x)
    (s : Fin N → ℚ) (avail : Fin N → Bool) (hex : ∃ m, avail m = true) :
    (∀ n, avail n = false →
      expW e (((s n : ℚ) : WithBot ℚ) + maskVal (avail n))
        / (∑ m, expW e (((s m : ℚ) : WithBot ℚ) + maskVal (avail m))) = 0) ∧
    (∑ n, expW e (((s n : ℚ) : WithBot ℚ) + maskVal (avail n))
        / (∑ m, expW e (((s m : ℚ) : WithBot ℚ) + maskVal (avail m)))) = 1 := by
  have hmask : ∀ m, expW e (((s m : ℚ) : WithBot ℚ) + maskVal (avail m))
      = if avail m then e (s m) else 0 := by
    intro m
    cases h : avail m
    · simp [maskVal, h, WithBot.add_bot, expW]
    · have : ((s m : ℚ) : WithBot ℚ) + maskVal true = ((s m : ℚ) : WithBot ℚ) := by
        simp [maskVal]
      simp [h, this, expW]
  obtain ⟨m0, hm0⟩ := hex
  have hZ : 0 < ∑ m, expW e (((s m : ℚ) : WithBot ℚ) + maskVal (avail m)) := by
    apply Finset.sum_pos'
    · intro i _
      rw [hmask]
      cases h : avail i
      · simp
      · simp [le_of_lt (he (s i))]
    · exact ⟨m0, Finset.mem_univ m0, by rw [hmask, hm0, if_pos rfl]; exact he (s m0)⟩
  constructor
  · intro n hn
    rw [hmask, hn, if_neg Bool.false_ne_true, zero_div]
  · rw [← Finset.sum_div]
    exact div_self hZ.ne'

/-- C5: for every availability mask with at least one available node, the TSP
Variant A `Policy` head assigns probability `0` to every unavailable node
(the additive `-infinity` mask makes the exponential vanish there), and the
output sums to `1` over the node dimension — for every decoder output,
single-head key, clipping constant and scale, and every positive exponential. -/
theorem tsp_policy_masked_softmax {E N : ℕ} (C sd : ℚ) (th e : ℚ → ℚ)
    (q : Fin E → ℚ) (K : Fin E → Fin N → ℚ) (avail : Fin N → Bool)
    (he : ∀ x, 0 < e x) (hex : ∃ m, avail m = true) :
    (∀ n, avail n = false → policy_forward C sd th e q K avail n = 0) ∧
    (∑ n, policy_forward C sd th e q K avail n) = 1 := by
  have h := maskedSoftmax_spec e he (fun m => C * th (policy_score q K m / sd)) avail hex
  exact ⟨fun n hn => h.1 n hn, h.2⟩

/-- C5 witness: a two-node instance with only node 0 available, constant unit
exponential: node 1 gets probability `0` and the row sums to `1`. -/
theorem tsp_policy_masked_softmax_witness :
    @policy_forward 1 2 10 1 id (fun _ => 1) (fun _ => 0) (fun _ _ => 0) ![true, false] 1 = 0 ∧
    (∑ n, @policy_forward 1 2 10 1 id (fun _ => 1) (fun _ => 0) (fun _ _ => 0)
      ![true, false] n) = 1 :=
  ⟨(tsp_policy_masked_softmax 10 1 id (fun _ => 1) (fun _ => 0) (fun _ _ => 0) ![true, false]
      (fun _ => one_pos) ⟨0, rfl⟩).1 1 rfl,
   (tsp_policy_masked_softmax 10 1 id (fun _ => 1) (fun _ => 0) (fun _ _ => 0) ![true, false]
      (fun _ => one_pos) ⟨0, rfl⟩).2⟩

/-- C7: with `return_checkpoint = True`, a supplied `load_epoch` yields the
path `<folder>/saved_models/checkpoint-<load_epoch>.pt`; an absent
`load_epoch` yields `None` regardless of the other flags; with
`mcts_param = True` the folder carries the
`ns_..-temp_..-cpuct_..-norm_..-rollout_..-ec_..` segment, whose `ec_` part
renders `ent_coef` with exactly 4 digits after the decimal point. -/
theorem parse_saved_model_dir_checkpoint_spec (a : Args) (rd np : String)
    (m i : Bool) (tr : Option Unit) :
    (∀ e, parse_saved_model_dir a rd np (some e) m true i tr
        = some (psd_folder a rd np m i tr ++ "/saved_models/checkpoint-" ++ e ++ ".pt")) ∧
    parse_saved_model_dir a rd np none m true i tr = none ∧
    psd_folder a rd np true i tr
      = ((if !i && check_debug tr then "./debug" else ".") ++
          ("/" ++ rd ++ "/" ++ np ++ "/" ++ env_param_nm a ++ model_param_nm a)) ++
        ("/ns_" ++ toString a.num_simulations ++ "-temp_" ++ toString a.temp_threshold ++
          "-cpuct_" ++ a.cpuct ++ "-norm_" ++ pyBool a.normalize_value ++
          "-rollout_" ++ pyBool a.rollout_game ++ "-ec_" ++ fmt4 a.ent_coef) ∧
    fmt4 a.ent_coef
      = ((if rhe (a.ent_coef * 10000) < 0 then "-" else "") ++
          toString ((rhe (a.ent_coef * 10000)).natAbs / 10000) ++ ".") ++
        frac4 ((rhe (a.ent_coef * 10000)).natAbs % 10000) ∧
    (frac4 ((rhe (a.ent_coef * 10000)).natAbs % 10000)).length = 4 := by
  refine ⟨fun e => rfl, rfl, ?_, ?_, ?_⟩
  · cases hdbg : (!i && check_debug tr) <;>
      simp [psd_folder, psd_tail, mcts_param_nm, hdbg, String.append_assoc]
  · simp [fmt4, String.append_assoc]
  · rw [frac4, String.length_mk]
    rfl
